import Mathlib

/-!
Shallow embedding of the december backend core: the December command
protocol (responseProcessor, as reproduced in
src/backend/src/instructions/context/shadcn_documentation.md), the
load_examples tool-call protocol (src/backend/src/services/toolProcessor.ts),
the context selector (ContextLoader.analyzeUserRequest) and the two-phase
turn orchestration (src/backend/src/services/llm.ts).

Strings are modelled as Lean String / List Char.  The JavaScript regular
expressions used by the source are hand-compiled to deterministic scanners
with exactly the source semantics: global exec scans left to right, a match
advances past its end, lazy bodies stop at the first occurrence of the
closing literal, attribute values are maximal nonempty runs of non-quote
characters, and the optional context group of the load_examples pattern is
tried greedily with backtracking.  External effects (the model provider,
the sandbox file store, the document store) are passed in as function
parameters, and file writes are logged explicitly.
-/

/-- Whitespace class of JavaScript regular expressions and of
String.prototype.trim. -/
def isJsSpace (c : Char) : Bool :=
  c = ' ' || c = '\t' || c = '\n' || c = '\r' ||
  c.toNat = 0xb || c.toNat = 0xc ||
  c.toNat = 0xa0 || c.toNat = 0x1680 ||
  (0x2000 ≤ c.toNat && c.toNat ≤ 0x200a) ||
  c.toNat = 0x2028 || c.toNat = 0x2029 || c.toNat = 0x202f ||
  c.toNat = 0x205f || c.toNat = 0x3000 || c.toNat = 0xfeff

/-- JavaScript String.prototype.trim on a character list. -/
def trimStr (l : List Char) : List Char :=
  ((l.dropWhile isJsSpace).reverse.dropWhile isJsSpace).reverse

/-- JavaScript String.prototype.trim. -/
def jsTrim (s : String) : String :=
  (trimStr s.data).asString

/-- Consume a literal; some rest when the literal is a prefix of the input. -/
def dropLit : List Char → List Char → Option (List Char)
  | [], s => some s
  | _ :: _, [] => none
  | p :: ps, c :: cs => if c = p then dropLit ps cs else none

/-- Maximal run of regex whitespace (the pattern backslash-s-star). -/
def skipWs (s : List Char) : List Char :=
  s.dropWhile isJsSpace

/-- At least one regex whitespace character, then the maximal run
(the pattern backslash-s-plus). -/
def skipWs1 (s : List Char) : Option (List Char) :=
  match s with
  | [] => none
  | c :: cs => if isJsSpace c then some (cs.dropWhile isJsSpace) else none

/-- A quoted attribute value: a nonempty maximal run of non-quote characters
followed by the closing double quote.  Models a parenthesised
non-quote-plus regex group followed by the quote literal. -/
def readQuoted (s : List Char) : Option (List Char × List Char) :=
  let sp := s.span (fun c => c != '"')
  if sp.1.isEmpty then none
  else
    match sp.2 with
    | c :: r => if c = '"' then some (sp.1, r) else none
    | [] => none

/-- All decompositions s = body ++ closer ++ rest, ordered by increasing body
length; the head realises a lazy (non-greedy) body capture. -/
def bodySplits (closer : List Char) : List Char → List (List Char × List Char)
  | [] => []
  | c :: cs =>
    (match dropLit closer (c :: cs) with
     | some r => [(([] : List Char), r)]
     | none => []) ++
    (bodySplits closer cs).map (fun p => (c :: p.1, p.2))

/-- Run a matcher at every position, left to right, resuming after each
match, like a global JavaScript regex exec loop.  Fuel bounds the number of
steps; every matcher used here consumes at least one character on success,
so fuel equal to the input length never runs out. -/
def scanAux {α : Type} (m : List Char → Option (α × List Char)) :
    Nat → List Char → List α
  | 0, _ => []
  | _ + 1, [] => []
  | fuel + 1, c :: cs =>
    match m (c :: cs) with
    | some (a, rest) => a :: scanAux m fuel rest
    | none => scanAux m fuel cs

/-- Global exec loop over a string. -/
def scanAll {α : Type} (m : List Char → Option (α × List Char))
    (s : List Char) : List α :=
  scanAux m s.length s

/-- Replacement loop mirroring String.prototype.replace with a global regex:
at each position either a match is rewritten by rep and scanning resumes
after it, or the character is kept. -/
def replaceAux {α : Type} (m : List Char → Option (α × List Char))
    (rep : α → List Char) : Nat → List Char → List Char
  | 0, s => s
  | _ + 1, [] => []
  | fuel + 1, c :: cs =>
    match m (c :: cs) with
    | some (a, rest) => rep a ++ replaceAux m rep fuel rest
    | none => c :: replaceAux m rep fuel cs

/-- Global replace over a string. -/
def replaceTag {α : Type} (m : List Char → Option (α × List Char))
    (rep : α → List Char) (s : List Char) : List Char :=
  replaceAux m rep s.length s

/-- No position of s matches m. -/
abbrev noMatches {α : Type} (m : List Char → Option (α × List Char))
    (s : List Char) : Prop :=
  (scanAll m s).isEmpty = true

/- ### December command protocol (responseProcessor) -/

inductive CommandType where
  | write
  | rename
  | delete
  | addDependency
deriving DecidableEq, Repr

/-- The string stored in the type field of the source DecemberCommand. -/
def CommandType.tsName : CommandType → String
  | .write => "write"
  | .rename => "rename"
  | .delete => "delete"
  | .addDependency => "add-dependency"

/-- interface DecemberCommand, with the optional fields of the source. -/
structure DecemberCommand where
  type : CommandType
  filePath : Option String := none
  content : Option String := none
  oldPath : Option String := none
  newPath : Option String := none
  package : Option String := none
deriving DecidableEq, Repr

structure ProcessedResponse where
  cleanedContent : String
  commands : List DecemberCommand
  hasCommands : Bool
deriving DecidableEq, Repr

/-- Matcher for the dec-write element: open literal, whitespace, the
file_path attribute, the closing angle, then a lazy body up to the first
closing literal.  Captures (filePath, body). -/
def tryWrite (s : List Char) : Option ((List Char × List Char) × List Char) := do
  let s ← dropLit "<dec-write".data s
  let s ← skipWs1 s
  let s ← dropLit "file_path=\"".data s
  let (p, s) ← readQuoted s
  let s ← dropLit ">".data s
  let (body, rest) ← (bodySplits "</dec-write>".data s).head?
  return ((p, body), rest)

/-- Matcher for the self-closing dec-rename element; captures (from, to). -/
def tryRename (s : List Char) : Option ((List Char × List Char) × List Char) := do
  let s ← dropLit "<dec-rename".data s
  let s ← skipWs1 s
  let s ← dropLit "from=\"".data s
  let (o, s) ← readQuoted s
  let s ← skipWs1 s
  let s ← dropLit "to=\"".data s
  let (n, s) ← readQuoted s
  let s ← dropLit "/>".data (skipWs s)
  return ((o, n), s)

/-- Matcher for the self-closing dec-delete element; captures file_path. -/
def tryDelete (s : List Char) : Option (List Char × List Char) := do
  let s ← dropLit "<dec-delete".data s
  let s ← skipWs1 s
  let s ← dropLit "file_path=\"".data s
  let (p, s) ← readQuoted s
  let s ← dropLit "/>".data (skipWs s)
  return (p, s)

/-- Matcher for the self-closing dec-add-dependency element; captures the
package attribute. -/
def tryDep (s : List Char) : Option (List Char × List Char) := do
  let s ← dropLit "<dec-add-dependency".data s
  let s ← skipWs1 s
  let s ← dropLit "package=\"".data s
  let (p, s) ← readQuoted s
  let s ← dropLit "/>".data (skipWs s)
  return (p, s)

/-- Matcher for a wrapper element with a lazy body, e.g. dec-code or
dec-thinking; captures the body. -/
def tryWrapper (openT closeT : List Char) (s : List Char) :
    Option (List Char × List Char) := do
  let s ← dropLit openT s
  (bodySplits closeT s).head?

def tryCodeTag (s : List Char) : Option (List Char × List Char) :=
  tryWrapper "<dec-code>".data "</dec-code>".data s

def tryThinkingTag (s : List Char) : Option (List Char × List Char) :=
  tryWrapper "<dec-thinking>".data "</dec-thinking>".data s

def tryErrorTag (s : List Char) : Option (List Char × List Char) :=
  tryWrapper "<dec-error>".data "</dec-error>".data s

def trySuccessTag (s : List Char) : Option (List Char × List Char) :=
  tryWrapper "<dec-success>".data "</dec-success>".data s

/-- The dec-write commands of a response, in order of appearance. -/
def writeCommands (response : String) : List DecemberCommand :=
  (scanAll tryWrite response.data).map fun pc =>
    { type := .write, filePath := some pc.1.asString,
      content := some (trimStr pc.2).asString }

/-- The dec-rename commands of a response, in order of appearance. -/
def renameCommands (response : String) : List DecemberCommand :=
  (scanAll tryRename response.data).map fun pq =>
    { type := .rename, oldPath := some pq.1.asString,
      newPath := some pq.2.asString }

/-- The dec-delete commands of a response, in order of appearance. -/
def deleteCommands (response : String) : List DecemberCommand :=
  (scanAll tryDelete response.data).map fun p =>
    { type := .delete, filePath := some p.asString }

/-- The dec-add-dependency commands of a response, in order of appearance. -/
def addDependencyCommands (response : String) : List DecemberCommand :=
  (scanAll tryDep response.data).map fun p =>
    { type := .addDependency, package := some p.asString }

/-- parseDecemberTags: four independent global scans pushing commands type by
type, then the eight-step replace chain producing the cleaned content. -/
def parseDecemberTags (response : String) : ProcessedResponse :=
  let r := response.data
  let commands :=
    writeCommands response ++ renameCommands response ++
    deleteCommands response ++ addDependencyCommands response
  let cl1 := replaceTag tryWrite (fun _ => []) r
  let cl2 := replaceTag tryRename (fun _ => []) cl1
  let cl3 := replaceTag tryDelete (fun _ => []) cl2
  let cl4 := replaceTag tryDep (fun _ => []) cl3
  let cl5 := replaceTag tryCodeTag (fun b => b) cl4
  let cl6 := replaceTag tryThinkingTag (fun _ => []) cl5
  let cl7 := replaceTag tryErrorTag (fun b => b) cl6
  let cl8 := replaceTag trySuccessTag (fun b => b) cl7
  { cleanedContent := (trimStr cl8).asString,
    commands := commands,
    hasCommands := commands.length != 0 }

/- ### Command executor (executeDecemberCommands) -/

/-- Per-command step of executeDecemberCommands: the error strings pushed and
the sandbox writes performed.  The writeFile parameter is the external
fileService.writeFile capability; a thrown error is modelled as
Except.error with the message.  The guards mirror the truthiness checks of
the source (an empty-string path is falsy in JavaScript, while an empty
content string still passes the content-defined check). -/
def execCommand (writeFile : String → String → Except String Unit)
    (cmd : DecemberCommand) : List String × List (String × String) :=
  match cmd.type with
  | .write =>
    match cmd.filePath, cmd.content with
    | some p, some c =>
      if p != "" then
        match writeFile p c with
        | .ok _ => ([], [(p, c)])
        | .error e => (["Error executing write command: " ++ e], [])
      else (["Invalid write command: missing filePath or content"], [])
    | _, _ => (["Invalid write command: missing filePath or content"], [])
  | .rename =>
    match cmd.oldPath, cmd.newPath with
    | some o, some n =>
      if o != "" && n != "" then (["Rename operation not yet implemented"], [])
      else (["Invalid rename command: missing oldPath or newPath"], [])
    | _, _ => (["Invalid rename command: missing oldPath or newPath"], [])
  | .delete =>
    match cmd.filePath with
    | some p =>
      if p != "" then (["Delete operation not yet implemented"], [])
      else (["Invalid delete command: missing filePath"], [])
    | none => (["Invalid delete command: missing filePath"], [])
  | .addDependency =>
    match cmd.package with
    | some p =>
      if p != "" then (["Add dependency operation not yet implemented"], [])
      else (["Invalid add-dependency command: missing package"], [])
    | none => (["Invalid add-dependency command: missing package"], [])

/-- The accumulator loop of executeDecemberCommands. -/
def execLoop (writeFile : String → String → Except String Unit) :
    List DecemberCommand → List String → List (String × String) →
    List String × List (String × String)
  | [], errs, ws => (errs, ws)
  | cmd :: rest, errs, ws =>
    let r := execCommand writeFile cmd
    execLoop writeFile rest (errs ++ r.1) (ws ++ r.2)

/-- Result of executeDecemberCommands, extended with the log of sandbox
writes actually issued. -/
structure ExecOutcome where
  success : Bool
  errors : List String
  writes : List (String × String)
deriving DecidableEq, Repr

/-- executeDecemberCommands: fold over the commands collecting errors,
success exactly when the error list stayed empty. -/
def executeDecemberCommands (writeFile : String → String → Except String Unit)
    (commands : List DecemberCommand) : ExecOutcome :=
  let r := execLoop writeFile commands [] []
  { success := r.1.length == 0, errors := r.1, writes := r.2 }

/-- Result record of processDecemberResponse, plus the write log. -/
structure DecemberProcessing where
  cleanedResponse : String
  commandsExecuted : Nat
  errors : List String
  writes : List (String × String)
deriving DecidableEq, Repr

/-- processDecemberResponse: parse, and only when commands were found execute
them and substitute the cleaned content. -/
def processDecemberResponse (writeFile : String → String → Except String Unit)
    (response : String) : DecemberProcessing :=
  let parsed := parseDecemberTags response
  if !parsed.hasCommands then
    { cleanedResponse := response, commandsExecuted := 0, errors := [],
      writes := [] }
  else
    let execution := executeDecemberCommands writeFile parsed.commands
    { cleanedResponse := parsed.cleanedContent,
      commandsExecuted := parsed.commands.length,
      errors := execution.errors,
      writes := execution.writes }

/- ### Tool-call protocol (toolProcessor) -/

/-- interface ToolCall. -/
structure ToolCall where
  type : String
  examples : List String
  context : List String
deriving DecidableEq, Repr

/-- interface ToolResult. -/
structure ToolResult where
  success : Bool
  content : Option String
  error : Option String
deriving DecidableEq, Repr

/-- The comma split of JavaScript String.prototype.split. -/
def splitComma : List Char → List (List Char)
  | [] => [[]]
  | c :: cs =>
    if c = ',' then [] :: splitComma cs
    else
      match splitComma cs with
      | h :: t => (c :: h) :: t
      | [] => [[c]]

/-- trim the whole list, split on commas, trim each name, drop empties:
the name-list normalisation applied to the examples and context bodies. -/
def cleanNames (l : List Char) : List String :=
  (((splitComma (trimStr l)).map trimStr).filter
    (fun x => !x.isEmpty)).map List.asString

/-- Context branch of the load_examples pattern: optional whitespace, a
context element with lazy body, optional whitespace, the closing literal.
Candidate lazy bodies are tried shortest first, as the backtracking regex
engine does. -/
def tryContextBranch (ex : List Char) (r1 : List Char) :
    Option ((List Char × Option (List Char)) × List Char) := do
  let r2 ← dropLit "<context>".data (skipWs r1)
  (bodySplits "</context>".data r2).findSome? fun p => do
    let r4 ← dropLit "</load_examples>".data (skipWs p.2)
    return ((ex, some p.1), r4)

/-- Group-skipped branch of the optional context group. -/
def tryNoContextBranch (ex : List Char) (r1 : List Char) :
    Option ((List Char × Option (List Char)) × List Char) := do
  let r4 ← dropLit "</load_examples>".data (skipWs r1)
  return ((ex, none), r4)

/-- Matcher for one load_examples element; captures the examples body and the
optional context body.  The greedy optional group tries the context branch
before skipping it, and lazy bodies expand shortest first. -/
def tryLoadExamples (s : List Char) :
    Option ((List Char × Option (List Char)) × List Char) := do
  let s1 ← dropLit "<load_examples>".data s
  let s3 ← dropLit "<examples>".data (skipWs s1)
  (bodySplits "</examples>".data s3).findSome? fun p =>
    (tryContextBranch p.1 p.2).orElse fun _ => tryNoContextBranch p.1 p.2

/-- parseToolCalls: scan all load_examples elements, normalise the name
lists, and keep only calls whose examples list is nonempty. -/
def parseToolCalls (assistantResponse : String) : List ToolCall :=
  (scanAll tryLoadExamples assistantResponse.data).filterMap fun m =>
    let examples := cleanNames m.1
    let context := cleanNames (match m.2 with | some c => c | none => [])
    if examples.length > 0 then
      some { type := "load_examples", examples := examples, context := context }
    else none

/-- executeToolCall, parametrised by the external
contextLoader.assemblePromptWithExamples capability; a throw is modelled as
Except.error with the message. -/
def executeToolCall
    (assemble : List String → List String → Except String String)
    (toolCall : ToolCall) : ToolResult :=
  if toolCall.type = "load_examples" then
    match assemble toolCall.examples toolCall.context with
    | .ok content => { success := true, content := some content, error := none }
    | .error e => { success := false, content := none, error := some e }
  else
    { success := false, content := none,
      error := some ("Unknown tool type: " ++ toolCall.type) }

/-- Result record of processToolCalls. -/
structure ToolProcessing where
  toolCalls : List ToolCall
  results : List ToolResult
  hasToolCalls : Bool
deriving DecidableEq, Repr

/-- processToolCalls: parse and execute every tool call. -/
def processToolCalls
    (assemble : List String → List String → Except String String)
    (assistantResponse : String) : ToolProcessing :=
  let toolCalls := parseToolCalls assistantResponse
  { toolCalls := toolCalls,
    results := toolCalls.map (executeToolCall assemble),
    hasToolCalls := toolCalls.length > 0 }

/-- cleanAssistantResponse: remove every load_examples element and trim. -/
def cleanAssistantResponse (assistantResponse : String) : String :=
  (trimStr (replaceTag tryLoadExamples (fun _ => [])
    assistantResponse.data)).asString

/- ### Context selector (ContextLoader.analyzeUserRequest) -/

/-- interface LoadedContext. -/
structure LoadedContext where
  examples : List String
  context : List String
deriving DecidableEq, Repr

/-- Substring containment, the semantics of String.prototype.includes. -/
def containsSub (needle : List Char) : List Char → Bool
  | [] => needle.isEmpty
  | c :: cs => needle.isPrefixOf (c :: cs) || containsSub needle cs

/-- message.includes(trigger) on the case-folded message. -/
def includesLit (message : List Char) (t : String) : Bool :=
  containsSub t.data message

/-- toLowerCase, modelled by ASCII case folding (every trigger word of the
selector is ASCII). -/
def lowerStr (s : String) : List Char :=
  s.data.map Char.toLower

/-- The example trigger table of analyzeUserRequest, in source order. -/
def exampleTriggers : List (String × List String) :=
  [("refactoring_examples.md",
    ["refactor", "reorganize", "restructure", "extract", "split", "break down",
     "move function", "separate", "modularize", "clean up code"]),
   ("dependency_management_examples.md",
    ["install", "package", "dependency", "library", "npm", "yarn", "add package",
     "update package", "version", "import", "module"]),
   ("file_operations_examples.md",
    ["create file", "delete file", "rename file", "move file", "file structure",
     "directory", "folder", "organize files", "file extension"]),
   ("component_creation_examples.md",
    ["component", "create component", "new component", "ui component",
     "react component", "button", "form", "modal", "card", "layout"]),
   ("error_handling_examples.md",
    ["error", "bug", "fix", "debug", "exception", "try catch", "validation",
     "error boundary", "handle error", "error message"]),
   ("state_management_examples.md",
    ["state", "useState", "context", "redux", "zustand", "react query",
     "data flow", "global state", "local state", "state update"]),
   ("ui_implementation_examples.md",
    ["style", "css", "tailwind", "design", "responsive", "layout",
     "animation", "theme", "color", "spacing", "typography"]),
   ("nextjs_examples.md",
    ["next.js", "nextjs", "app router", "routing", "api route", "server component",
     "client component", "ssr", "ssg", "isr", "metadata", "dynamic route"])]

/-- The context trigger table of analyzeUserRequest, in source order. -/
def contextTriggers : List (String × List String) :=
  [("shadcn_documentation.md",
    ["shadcn", "ui component", "button", "card", "dialog", "form",
     "input", "select", "accordion", "alert", "badge", "sidebar"]),
   ("common_errors.md",
    ["error", "bug", "issue", "problem", "fix", "debug", "troubleshoot",
     "not working", "broken", "failed", "exception"]),
   ("package_information.md",
    ["package", "dependency", "library", "install", "version",
     "npm", "yarn", "import", "module", "available packages"]),
   ("project_structure.md",
    ["structure", "organization", "directory", "folder", "file structure",
     "organize", "architecture", "file permissions", "allowed files"])]

/-- The two primary table loops: a document is pushed when some trigger
phrase occurs in the case-folded message. -/
def primarySelection (message : List Char) : LoadedContext :=
  { examples := (exampleTriggers.filter
      (fun ft => ft.2.any (fun t => includesLit message t))).map (fun ft => ft.1),
    context := (contextTriggers.filter
      (fun ft => ft.2.any (fun t => includesLit message t))).map (fun ft => ft.1) }

/-- Push a name unless it is already present, mirroring the guarded push of
the forced-inclusion rules. -/
def pushUnique (l : List String) (x : String) : List String :=
  if l.contains x then l else l ++ [x]

/-- analyzeUserRequest: primary trigger tables, then the two forced-inclusion
rules for common_errors.md and shadcn_documentation.md. -/
def analyzeUserRequest (userMessage : String) : LoadedContext :=
  let message := lowerStr userMessage
  let base := primarySelection message
  let ctx1 :=
    if includesLit message "error" || includesLit message "bug" ||
       includesLit message "issue" then
      pushUnique base.context "common_errors.md"
    else base.context
  let ctx2 :=
    if includesLit message "component" || includesLit message "ui" ||
       includesLit message "button" then
      pushUnique ctx1 "shadcn_documentation.md"
    else ctx1
  { examples := base.examples, context := ctx2 }

/- ### Orchestrator (llm.ts) -/

inductive Role where
  | user
  | assistant
deriving DecidableEq, Repr

/-- interface Message, reduced to the fields the claims speak about; the id
and timestamp come from the external clock. -/
structure Message where
  role : Role
  content : String
deriving DecidableEq, Repr

/-- Typed events of the streaming generator. -/
inductive StreamEvent where
  | user (m : Message)
  | assistant (content : String)
  | toolProcessing (toolCalls : List ToolCall)
  | done (m : Message)
deriving DecidableEq, Repr

/-- Outcome of one turn: the session message list after the turn, the
finalized assistant content, and the log of sandbox writes. -/
structure TurnResult where
  messages : List Message
  assistantContent : String
  writes : List (String × String)
deriving DecidableEq, Repr

/-- JavaScript x-or-else-y on a possibly-missing string: the empty string is
falsy, so it also falls through to the default. -/
def jsOr (o : Option String) (d : String) : String :=
  match o with
  | some s => if s != "" then s else d
  | none => d

/-- results.map(r => r.content).filter(c => c): keep the truthy contents. -/
def truthyContents (l : List (Option String)) : List String :=
  l.filterMap fun o =>
    match o with
    | some s => if s != "" then some s else none
    | none => none

/-- Array.prototype.join. -/
def joinSep (sep : String) : List String → String
  | [] => ""
  | [s] => s
  | s :: rest => s ++ sep ++ joinSep sep rest

/-- The loaded content combined from the successful tool results, exactly as
both orchestration paths compute it. -/
def loadedContentOf (tp : ToolProcessing) : String :=
  joinSep "\n\n" (truthyContents ((tp.results.filter
    (fun r => r.success)).map (fun r => r.content)))

/-- The final December pass shared by both paths: parse the accumulated
text, and only when commands were executed substitute the cleaned text. -/
def decemberFinalize (writeFile : String → String → Except String Unit)
    (content : String) : String :=
  let dec := processDecemberResponse writeFile content
  if dec.commandsExecuted > 0 then dec.cleanedResponse else content

/-- Augmentation decision of the buffered path: when tool calls were found,
some result succeeded and the combined loaded content is truthy, the second
model call (phase2, external) replaces the text, falling back to the
first-phase text when the second call yields no content. -/
def augmentBuffered (phase2 : Option String) (tp : ToolProcessing)
    (content1 : String) : String :=
  if tp.hasToolCalls then
    if (tp.results.filter (fun r => r.success)).length > 0 then
      if loadedContentOf tp != "" then jsOr phase2 content1
      else content1
    else content1
  else content1

/-- One buffered turn (sendMessage).  External collaborators are parameters:
phase1 and phase2 are the contents returned by the two model calls (none
models a missing content field), assemble is the document-store loader
behind executeToolCall, writeFile the sandbox write capability.  The
prompt-building steps only feed the external model and are not part of the
observable state. -/
def sendMessage (messages0 : List Message) (userMessage : String)
    (phase1 : Option String)
    (assemble : List String → List String → Except String String)
    (phase2 : Option String)
    (writeFile : String → String → Except String Unit) : TurnResult :=
  let userMsg : Message := { role := .user, content := userMessage }
  let messages1 := messages0 ++ [userMsg]
  let content1 := jsOr phase1 "Sorry, I could not generate a response."
  let tp := processToolCalls assemble content1
  let contentAfter := augmentBuffered phase2 tp content1
  let finalContent := decemberFinalize writeFile contentAfter
  let assistantMsg : Message := { role := .assistant, content := finalContent }
  { messages := messages1 ++ [assistantMsg],
    assistantContent := finalContent,
    writes := (processDecemberResponse writeFile contentAfter).writes }

/-- Streamed accumulation: each truthy delta extends the accumulator and
emits an assistant event carrying the whole accumulated text; falsy deltas
emit nothing.  Returns the events and the final accumulated text. -/
def streamDeltas (acc : String) : List (Option String) →
    List StreamEvent × String
  | [] => ([], acc)
  | d :: ds =>
    match d with
    | some s =>
      if s != "" then
        let r := streamDeltas (acc ++ s) ds
        (StreamEvent.assistant (acc ++ s) :: r.1, r.2)
      else streamDeltas acc ds
    | none => streamDeltas acc ds

/-- Augmentation phase of the streamed path: when tool calls were found a
tool_processing event is emitted; when moreover some result succeeded and
the loaded content is truthy, the accumulator is reset to the empty string
and the second stream is consumed.  Returns the tool_processing events, the
second-phase assistant events, and the accumulated text afterwards. -/
def augmentStream (chunks2 : List (Option String)) (tp : ToolProcessing)
    (content1 : String) :
    List StreamEvent × List StreamEvent × String :=
  if tp.hasToolCalls then
    if (tp.results.filter (fun r => r.success)).length > 0 then
      if loadedContentOf tp != "" then
        let p2 := streamDeltas "" chunks2
        ([StreamEvent.toolProcessing tp.toolCalls], p2.1, p2.2)
      else ([StreamEvent.toolProcessing tp.toolCalls], [], content1)
    else ([StreamEvent.toolProcessing tp.toolCalls], [], content1)
  else ([], [], content1)

/-- One streamed turn (sendMessageStream): the emitted event list and the
turn outcome.  chunks1 and chunks2 are the delta contents of the two
streaming model calls. -/
def sendMessageStream (messages0 : List Message) (userMessage : String)
    (chunks1 : List (Option String))
    (assemble : List String → List String → Except String String)
    (chunks2 : List (Option String))
    (writeFile : String → String → Except String Unit) :
    List StreamEvent × TurnResult :=
  let userMsg : Message := { role := .user, content := userMessage }
  let messages1 := messages0 ++ [userMsg]
  let p1 := streamDeltas "" chunks1
  let tp := processToolCalls assemble p1.2
  let aug := augmentStream chunks2 tp p1.2
  let finalContent := decemberFinalize writeFile aug.2.2
  let finalMsg : Message := { role := .assistant, content := finalContent }
  (StreamEvent.user userMsg :: (p1.1 ++ (aug.1 ++ (aug.2.1 ++
     [StreamEvent.done finalMsg]))),
   { messages := messages1 ++ [finalMsg],
     assistantContent := finalContent,
     writes := (processDecemberResponse writeFile aug.2.2).writes })

/- ### Helper lemmas -/

/-- Every element produced by the scan loop comes from a successful match of
the matcher at some position. -/
theorem scanAux_mem {α : Type} {m : List Char → Option (α × List Char)} :
    ∀ {fuel : Nat} {s : List Char} {a : α}, a ∈ scanAux m fuel s →
      ∃ s' rest, m s' = some (a, rest) := by
  intro fuel
  induction fuel with
  | zero => intro s a h; simp [scanAux] at h
  | succ n ih =>
    intro s a h
    match s with
    | [] => simp [scanAux] at h
    | c :: cs =>
      cases hm : m (c :: cs) with
      | none =>
        rw [scanAux, hm] at h
        exact ih h
      | some pr =>
        obtain ⟨a', rest⟩ := pr
        rw [scanAux, hm] at h
        rcases List.mem_cons.mp h with h | h
        · exact ⟨c :: cs, rest, by rw [hm, h]⟩
        · exact ih h

/-- A captured attribute value is never empty: the value group requires at
least one non-quote character. -/
theorem readQuoted_ne_nil {s : List Char} {v r : List Char}
    (h : readQuoted s = some (v, r)) : v ≠ [] := by
  rcases hs : List.span (fun c => c != '"') s with ⟨v', rest⟩
  unfold readQuoted at h
  rw [hs] at h
  simp only [] at h
  split at h
  · simp at h
  next hne =>
    split at h
    next c r' =>
      split at h
      · simp only [Option.some.injEq, Prod.mk.injEq] at h
        obtain ⟨h1, _⟩ := h
        intro hv
        rw [h1, hv] at hne
        simp at hne
      · simp at h
    · simp at h

/-- A matched dec-write element carries a nonempty file path. -/
theorem tryWrite_inv {s : List Char} {pb : List Char × List Char}
    {rest : List Char} (h : tryWrite s = some (pb, rest)) : pb.1 ≠ [] := by
  simp only [tryWrite, Option.bind_eq_some, Option.pure_def,
    Option.some.injEq, bind] at h
  obtain ⟨s1, h1, s2, h2, s3, h3, pq, h4, h5⟩ := h
  obtain ⟨p, s4⟩ := pq
  simp only [] at h5
  obtain ⟨s5, h5a, br, h6, h7⟩ := h5
  obtain ⟨body, r⟩ := br
  simp only [Prod.mk.injEq] at h7
  obtain ⟨hpb, _⟩ := h7
  rw [← hpb]
  simpa using readQuoted_ne_nil h4

/-- A matched dec-rename element carries nonempty from and to paths. -/
theorem tryRename_inv {s : List Char} {oldNew : List Char × List Char}
    {rest : List Char} (h : tryRename s = some (oldNew, rest)) :
    oldNew.1 ≠ [] ∧ oldNew.2 ≠ [] := by
  simp only [tryRename, Option.bind_eq_some, Option.pure_def,
    Option.some.injEq, bind] at h
  obtain ⟨s1, h1, s2, h2, s3, h3, pq, h4, h5⟩ := h
  obtain ⟨o, s4⟩ := pq
  simp only [] at h5
  obtain ⟨s5, h5a, s6, h6, pq2, h7, h8⟩ := h5
  obtain ⟨n, s7⟩ := pq2
  simp only [] at h8
  obtain ⟨s8, h8a, h9⟩ := h8
  simp only [Prod.mk.injEq] at h9
  obtain ⟨hon, _⟩ := h9
  rw [← hon]
  exact ⟨by simpa using readQuoted_ne_nil h4, by simpa using readQuoted_ne_nil h7⟩

/-- A matched dec-delete element carries a nonempty file path. -/
theorem tryDelete_inv {s : List Char} {p rest : List Char}
    (h : tryDelete s = some (p, rest)) : p ≠ [] := by
  simp only [tryDelete, Option.bind_eq_some, Option.pure_def,
    Option.some.injEq, bind] at h
  obtain ⟨s1, h1, s2, h2, s3, h3, pq, h4, h5⟩ := h
  obtain ⟨p', s4⟩ := pq
  simp only [] at h5
  obtain ⟨s5, h5a, h6⟩ := h5
  simp only [Prod.mk.injEq] at h6
  obtain ⟨hp, _⟩ := h6
  rw [← hp]
  simpa using readQuoted_ne_nil h4

/-- A matched dec-add-dependency element carries a nonempty package. -/
theorem tryDep_inv {s : List Char} {p rest : List Char}
    (h : tryDep s = some (p, rest)) : p ≠ [] := by
  simp only [tryDep, Option.bind_eq_some, Option.pure_def,
    Option.some.injEq, bind] at h
  obtain ⟨s1, h1, s2, h2, s3, h3, pq, h4, h5⟩ := h
  obtain ⟨p', s4⟩ := pq
  simp only [] at h5
  obtain ⟨s5, h5a, h6⟩ := h5
  simp only [Prod.mk.injEq] at h6
  obtain ⟨hp, _⟩ := h6
  rw [← hp]
  simpa using readQuoted_ne_nil h4

/-- A nonempty character list renders to a nonempty string. -/
theorem asString_ne_empty {l : List Char} (h : l ≠ []) : l.asString ≠ "" := by
  intro hc
  apply h
  simpa using congrArg String.data hc

/-- The executor accumulator loop is the concatenation of the per-command
error lists and write logs, in command order. -/
theorem execLoop_eq (writeFile : String → String → Except String Unit) :
    ∀ (cmds : List DecemberCommand) (errs : List String)
      (ws : List (String × String)),
      execLoop writeFile cmds errs ws =
        (errs ++ cmds.flatMap (fun c => (execCommand writeFile c).1),
         ws ++ cmds.flatMap (fun c => (execCommand writeFile c).2)) := by
  intro cmds
  induction cmds with
  | nil => intro errs ws; simp [execLoop]
  | cons c cs ih =>
    intro errs ws
    simp [execLoop, ih, List.append_assoc]

/-- A replace pass whose matcher never fires leaves the text unchanged. -/
theorem replaceAux_of_scan_nil {α : Type}
    {m : List Char → Option (α × List Char)} (rep : α → List Char) :
    ∀ (fuel : Nat) (s : List Char), scanAux m fuel s = [] →
      replaceAux m rep fuel s = s := by
  intro fuel
  induction fuel with
  | zero => intro s _; rfl
  | succ n ih =>
    intro s h
    match s with
    | [] => rfl
    | c :: cs =>
      cases hm : m (c :: cs) with
      | none =>
        rw [scanAux, hm] at h
        rw [replaceAux, hm]
        rw [ih cs h]
      | some pr =>
        obtain ⟨a', rest⟩ := pr
        rw [scanAux, hm] at h
        simp at h

/-- Assistant events with strictly growing content, each extending the
accumulator by one nonempty delta; any other event type in the segment is
excluded. -/
def AssistantGrowing : String → List StreamEvent → Prop
  | _, [] => True
  | prev, StreamEvent.assistant c :: rest =>
      (∃ d, d ≠ "" ∧ c = prev ++ d) ∧ AssistantGrowing c rest
  | _, _ :: _ => False

/-- One streamed model call emits only monotonically growing assistant
events. -/
theorem streamDeltas_growing :
    ∀ (ds : List (Option String)) (acc : String),
      AssistantGrowing acc (streamDeltas acc ds).1 := by
  intro ds
  induction ds with
  | nil => intro acc; simp [streamDeltas, AssistantGrowing]
  | cons d ds ih =>
    intro acc
    cases d with
    | none => simpa [streamDeltas] using ih acc
    | some s =>
      by_cases hs : s = ""
      · simpa [streamDeltas, hs] using ih acc
      · have hb : (s != "") = true := by simpa using hs
        simp only [streamDeltas, hb, if_true]
        refine ⟨⟨s, hs, rfl⟩, ih (acc ++ s)⟩

/-- A guarded push reaches its argument: the pushed name is a member
afterwards, whether or not it was already present. -/
theorem mem_pushUnique_self (l : List String) (x : String) :
    x ∈ pushUnique l x := by
  unfold pushUnique
  split
  next h => exact List.elem_iff.mp h
  next => exact List.mem_append_right _ (List.mem_singleton.mpr rfl)

/-- A guarded push never removes an existing member. -/
theorem mem_pushUnique_of_mem {l : List String} {y : String} (x : String)
    (h : y ∈ l) : y ∈ pushUnique l x := by
  unfold pushUnique
  split
  · exact h
  · exact List.mem_append_left _ h

/-- A guarded push only appends: the original list is a prefix. -/
theorem pushUnique_prefix (l : List String) (x : String) :
    ∃ t, l ++ t = pushUnique l x := by
  unfold pushUnique
  split
  · exact ⟨[], by simp⟩
  · exact ⟨[x], rfl⟩

/-- The streamed augmentation phase emits exactly one tool_processing event
when tool calls were detected and none otherwise. -/
theorem augmentStream_fst (chunks2 : List (Option String))
    (tp : ToolProcessing) (c1 : String) :
    (augmentStream chunks2 tp c1).1 =
      (if tp.hasToolCalls
       then [StreamEvent.toolProcessing tp.toolCalls] else []) := by
  unfold augmentStream
  cases h : tp.hasToolCalls
  · simp [h]
  · simp only [h, if_true]
    split
    · split <;> rfl
    · rfl

/-- The second-call events of the streamed augmentation phase are growing
assistant events starting from the reset (empty) accumulator. -/
theorem augmentStream_growing (chunks2 : List (Option String))
    (tp : ToolProcessing) (c1 : String) :
    AssistantGrowing "" (augmentStream chunks2 tp c1).2.1 := by
  unfold augmentStream
  split
  · split
    · split
      · exact streamDeltas_growing chunks2 ""
      · simp [AssistantGrowing]
    · simp [AssistantGrowing]
  · simp [AssistantGrowing]

/-- Without tool calls the streamed augmentation phase emits no second-call
assistant events. -/
theorem augmentStream_snd1_of_false (chunks2 : List (Option String))
    (tp : ToolProcessing) (c1 : String) (h : tp.hasToolCalls = false) :
    (augmentStream chunks2 tp c1).2.1 = [] := by
  unfold augmentStream
  simp [h]

/- ### Claims -/

/-- Claim C1, counterexample: the claim says the parsed command list is in
source-positional order across types, so a dec-delete element appearing
before a dec-write element should come first; on this input the parser
instead returns the write before the delete, refuting the claim. -/
theorem c1_source_order_counterexample :
    ((parseDecemberTags "<dec-delete file_path=\"a.ts\" /><dec-write file_path=\"a.ts\">X</dec-write>").commands.map
        (fun c => c.type) = [CommandType.write, CommandType.delete]) ∧
    ((parseDecemberTags "<dec-delete file_path=\"a.ts\" /><dec-write file_path=\"a.ts\">X</dec-write>").commands.map
        (fun c => c.type) ≠ [CommandType.delete, CommandType.write]) := by
  constructor
  · decide
  · decide

/-- Claim C1, amended: parseDecemberTags accumulates commands grouped by
type, in the fixed order writes, renames, deletes, add-dependencies, each
group in source order; consequently for a dec-delete appearing before a
dec-write to the same path, the executor attempts the write first, as the
error and write logs of the grouped execution show. -/
theorem c1_grouped_order :
    (∀ response : String,
      (parseDecemberTags response).commands =
        writeCommands response ++ renameCommands response ++
        deleteCommands response ++ addDependencyCommands response) ∧
    (executeDecemberCommands (fun _ _ => Except.ok ())
        (parseDecemberTags "<dec-delete file_path=\"a.ts\" /><dec-write file_path=\"a.ts\">X</dec-write>").commands).errors
      = ["Delete operation not yet implemented"] ∧
    (executeDecemberCommands (fun _ _ => Except.ok ())
        (parseDecemberTags "<dec-delete file_path=\"a.ts\" /><dec-write file_path=\"a.ts\">X</dec-write>").commands).writes
      = [("a.ts", "X")] := by
  refine ⟨fun response => rfl, by decide, by decide⟩

/-- Claim C2: the buffered turn keeps a nonempty first-phase text when the
second-phase call yields the empty string, but the streamed turn resets the
accumulator before the second stream and has no fallback, so with zero
second-phase deltas the finalized payload and the done event carry the
empty string instead of the nonempty first-phase text: the streamed half of
the claim fails on the code. -/
theorem c2_stream_drops_first_phase :
    (sendMessage [] "hi"
        (some "First phase. <load_examples><examples>foo.md</examples></load_examples>")
        (fun _ _ => Except.ok "LOADED") (some "")
        (fun _ _ => Except.ok ())).assistantContent =
      "First phase. <load_examples><examples>foo.md</examples></load_examples>" ∧
    (streamDeltas ""
      [some "First phase. <load_examples><examples>foo.md</examples></load_examples>"]).2
      ≠ "" ∧
    (sendMessageStream [] "hi"
        [some "First phase. <load_examples><examples>foo.md</examples></load_examples>"]
        (fun _ _ => Except.ok "LOADED") []
        (fun _ _ => Except.ok ())).2.assistantContent = "" ∧
    (sendMessageStream [] "hi"
        [some "First phase. <load_examples><examples>foo.md</examples></load_examples>"]
        (fun _ _ => Except.ok "LOADED") []
        (fun _ _ => Except.ok ())).1.getLast? =
      some (StreamEvent.done { role := Role.assistant, content := "" }) := by
  refine ⟨by decide, by decide, by decide, by decide⟩

/-- Claim C3: every ToolCall returned by parseToolCalls has a nonempty
examples list, and an element whose examples body is whitespace-only yields
no ToolCall even when its context body is nonempty. -/
theorem c3_toolcalls_nonempty_examples :
    (∀ (text : String) (tc : ToolCall), tc ∈ parseToolCalls text →
      tc.examples ≠ []) ∧
    parseToolCalls
      "<load_examples><examples>  </examples><context>c.md</context></load_examples>"
      = [] := by
  constructor
  · intro text tc h
    simp only [parseToolCalls, List.mem_filterMap] at h
    obtain ⟨a, _, ha⟩ := h
    by_cases hl : (cleanNames a.1).length > 0
    · simp only [hl, if_true] at ha
      obtain ⟨rfl⟩ := ha
      exact List.ne_nil_of_length_pos hl
    · simp [hl] at ha
  · decide

/-- Witness for claim C3: a concrete response with one tool call, whose
parsed examples list is indeed nonempty. -/
theorem c3_toolcalls_nonempty_examples_witness :
    ({ type := "load_examples", examples := ["foo.md"], context := [] } :
      ToolCall).examples ≠ [] :=
  c3_toolcalls_nonempty_examples.1
    "x <load_examples><examples>foo.md</examples></load_examples>" _ (by decide)

/-- Claim C4: executeDecemberCommands attempts every command in order: the
error list is the concatenation of the per-command error lists, the write
log is the concatenation of the per-command writes (so a failure never
halts the following commands), and the success flag is true exactly when
the collected error list is empty. -/
theorem c4_best_effort_execution
    (writeFile : String → String → Except String Unit)
    (commands : List DecemberCommand) :
    (executeDecemberCommands writeFile commands).errors =
      commands.flatMap (fun c => (execCommand writeFile c).1) ∧
    (executeDecemberCommands writeFile commands).writes =
      commands.flatMap (fun c => (execCommand writeFile c).2) ∧
    ((executeDecemberCommands writeFile commands).success = true ↔
      (executeDecemberCommands writeFile commands).errors = []) := by
  have h := execLoop_eq writeFile commands [] []
  have he : (executeDecemberCommands writeFile commands).errors =
      commands.flatMap (fun c => (execCommand writeFile c).1) := by
    simp only [executeDecemberCommands, h, List.nil_append]
  have hw2 : (executeDecemberCommands writeFile commands).writes =
      commands.flatMap (fun c => (execCommand writeFile c).2) := by
    simp only [executeDecemberCommands, h, List.nil_append]
  have hsucc : (executeDecemberCommands writeFile commands).success =
      ((executeDecemberCommands writeFile commands).errors.length == 0) := by
    simp only [executeDecemberCommands, h, List.nil_append]
  refine ⟨he, hw2, ?_⟩
  rw [hsucc]
  constructor
  · intro hb
    have hb2 : (executeDecemberCommands writeFile commands).errors.length = 0 := by
      simpa using hb
    exact List.length_eq_zero.mp hb2
  · intro hnil
    rw [hnil]
    rfl

/-- Claim C5: every well-formed dec-rename, dec-delete or dec-add-dependency
command parsed out of a response is attempted, appending the matching
not-implemented error string to the executor errors (never silently
dropped), while a parsed dec-write command carries a nonempty path and some
content and invokes the sandbox write with exactly that pair. -/
theorem c5_stubs_attempted_write_invoked
    (writeFile : String → String → Except String Unit)
    (response : String) (cmd : DecemberCommand)
    (hmem : cmd ∈ (parseDecemberTags response).commands) :
    (cmd.type = CommandType.rename →
      execCommand writeFile cmd = (["Rename operation not yet implemented"], []) ∧
      "Rename operation not yet implemented" ∈
        (executeDecemberCommands writeFile
          (parseDecemberTags response).commands).errors) ∧
    (cmd.type = CommandType.delete →
      execCommand writeFile cmd = (["Delete operation not yet implemented"], []) ∧
      "Delete operation not yet implemented" ∈
        (executeDecemberCommands writeFile
          (parseDecemberTags response).commands).errors) ∧
    (cmd.type = CommandType.addDependency →
      execCommand writeFile cmd =
        (["Add dependency operation not yet implemented"], []) ∧
      "Add dependency operation not yet implemented" ∈
        (executeDecemberCommands writeFile
          (parseDecemberTags response).commands).errors) ∧
    (cmd.type = CommandType.write →
      ∃ p c, cmd.filePath = some p ∧ cmd.content = some c ∧ p ≠ "" ∧
        execCommand writeFile cmd =
          (match writeFile p c with
           | Except.ok _ => ([], [(p, c)])
           | Except.error e =>
               (["Error executing write command: " ++ e], []))) := by
  have herrs : (executeDecemberCommands writeFile
      (parseDecemberTags response).commands).errors =
      (parseDecemberTags response).commands.flatMap
        (fun c => (execCommand writeFile c).1) := by
    have h := execLoop_eq writeFile (parseDecemberTags response).commands [] []
    simp only [executeDecemberCommands, h, List.nil_append]
  have hmemerr : ∀ e : String, (execCommand writeFile cmd).1 = [e] →
      e ∈ (executeDecemberCommands writeFile
        (parseDecemberTags response).commands).errors := by
    intro e he
    rw [herrs]
    exact List.mem_flatMap.mpr ⟨cmd, hmem, by rw [he]; simp⟩
  have hsplit : (parseDecemberTags response).commands =
      writeCommands response ++ renameCommands response ++
      deleteCommands response ++ addDependencyCommands response := rfl
  rw [hsplit] at hmem
  rcases List.mem_append.mp hmem with h3 | hdep
  rcases List.mem_append.mp h3 with h2 | hdel
  rcases List.mem_append.mp h2 with hwr | hren
  · obtain ⟨pc, hpc, rfl⟩ := List.mem_map.mp hwr
    obtain ⟨s', rest, hm⟩ :=
      scanAux_mem (show pc ∈ scanAux tryWrite response.data.length response.data
        from hpc)
    have hp : pc.1 ≠ [] := tryWrite_inv hm
    have hps : pc.1.asString ≠ "" := asString_ne_empty hp
    have hpb : (pc.1.asString != "") = true := by simpa using hps
    refine ⟨?_, ?_, ?_, ?_⟩
    · intro ht; simp at ht
    · intro ht; simp at ht
    · intro ht; simp at ht
    · intro _
      refine ⟨pc.1.asString, (trimStr pc.2).asString, rfl, rfl, hps, ?_⟩
      simp [execCommand, hpb]
  · obtain ⟨pq, hpq, rfl⟩ := List.mem_map.mp hren
    obtain ⟨s', rest, hm⟩ :=
      scanAux_mem (show pq ∈ scanAux tryRename response.data.length response.data
        from hpq)
    obtain ⟨ho, hn⟩ := tryRename_inv hm
    have h1 : (pq.1.asString != "") = true := by simpa using asString_ne_empty ho
    have h2 : (pq.2.asString != "") = true := by simpa using asString_ne_empty hn
    have hexec : execCommand writeFile
        { type := CommandType.rename, oldPath := some pq.1.asString,
          newPath := some pq.2.asString } =
        (["Rename operation not yet implemented"], []) := by
      simp [execCommand, h1, h2]
    refine ⟨?_, ?_, ?_, ?_⟩
    · intro _
      exact ⟨hexec, hmemerr _ (by rw [hexec])⟩
    · intro ht; simp at ht
    · intro ht; simp at ht
    · intro ht; simp at ht
  · obtain ⟨p, hpq, rfl⟩ := List.mem_map.mp hdel
    obtain ⟨s', rest, hm⟩ :=
      scanAux_mem (show p ∈ scanAux tryDelete response.data.length response.data
        from hpq)
    have hp := tryDelete_inv hm
    have h1 : (p.asString != "") = true := by simpa using asString_ne_empty hp
    have hexec : execCommand writeFile
        { type := CommandType.delete, filePath := some p.asString } =
        (["Delete operation not yet implemented"], []) := by
      simp [execCommand, h1]
    refine ⟨?_, ?_, ?_, ?_⟩
    · intro ht; simp at ht
    · intro _
      exact ⟨hexec, hmemerr _ (by rw [hexec])⟩
    · intro ht; simp at ht
    · intro ht; simp at ht
  · obtain ⟨p, hpq, rfl⟩ := List.mem_map.mp hdep
    obtain ⟨s', rest, hm⟩ :=
      scanAux_mem (show p ∈ scanAux tryDep response.data.length response.data
        from hpq)
    have hp := tryDep_inv hm
    have h1 : (p.asString != "") = true := by simpa using asString_ne_empty hp
    have hexec : execCommand writeFile
        { type := CommandType.addDependency, package := some p.asString } =
        (["Add dependency operation not yet implemented"], []) := by
      simp [execCommand, h1]
    refine ⟨?_, ?_, ?_, ?_⟩
    · intro ht; simp at ht
    · intro ht; simp at ht
    · intro _
      exact ⟨hexec, hmemerr _ (by rw [hexec])⟩
    · intro ht; simp at ht

/-- Witness for claim C5: the end-to-end scenario of the spec, one write
followed by one delete to the same path; the delete is attempted and its
not-implemented error is reported. -/
theorem c5_stubs_attempted_write_invoked_witness :
    execCommand (fun _ _ => Except.ok ())
        { type := CommandType.delete, filePath := some "a.ts" } =
      (["Delete operation not yet implemented"], []) ∧
    "Delete operation not yet implemented" ∈
      (executeDecemberCommands (fun _ _ => Except.ok ())
        (parseDecemberTags
          "<dec-write file_path=\"a.ts\">X</dec-write><dec-delete file_path=\"a.ts\" />").commands).errors :=
  (c5_stubs_attempted_write_invoked (fun _ _ => Except.ok ())
    "<dec-write file_path=\"a.ts\">X</dec-write><dec-delete file_path=\"a.ts\" />"
    { type := CommandType.delete, filePath := some "a.ts" } (by decide)).2.1 rfl

/-- Claim C6, counterexample: a text containing only a dec-thinking wrapper
has zero well-formed command and tool elements, yet the cleaned text is not
the trimmed original, refuting the claim as stated. -/
theorem c6_spurious_strip_counterexample :
    (parseDecemberTags "<dec-thinking>x</dec-thinking>ok").commands = [] ∧
    parseToolCalls "<dec-thinking>x</dec-thinking>ok" = [] ∧
    (parseDecemberTags "<dec-thinking>x</dec-thinking>ok").cleanedContent ≠
      jsTrim "<dec-thinking>x</dec-thinking>ok" := by
  refine ⟨by decide, by decide, by decide⟩

/-- Claim C6, amended: for texts in which no command element and also no
wrapper element (dec-code, dec-thinking, dec-error, dec-success) matches,
parse returns an empty command list and the cleaned text is exactly the
trimmed original. -/
theorem c6_no_elements_no_strip (r : String)
    (hw : noMatches tryWrite r.data) (hr : noMatches tryRename r.data)
    (hd : noMatches tryDelete r.data) (hp : noMatches tryDep r.data)
    (hc : noMatches tryCodeTag r.data) (ht : noMatches tryThinkingTag r.data)
    (he : noMatches tryErrorTag r.data) (hs : noMatches trySuccessTag r.data) :
    (parseDecemberTags r).commands = [] ∧
    (parseDecemberTags r).cleanedContent = jsTrim r := by
  have hw' : scanAll tryWrite r.data = [] := by
    simpa [noMatches, List.isEmpty_iff] using hw
  have hr' : scanAll tryRename r.data = [] := by
    simpa [noMatches, List.isEmpty_iff] using hr
  have hd' : scanAll tryDelete r.data = [] := by
    simpa [noMatches, List.isEmpty_iff] using hd
  have hp' : scanAll tryDep r.data = [] := by
    simpa [noMatches, List.isEmpty_iff] using hp
  have hc' : scanAll tryCodeTag r.data = [] := by
    simpa [noMatches, List.isEmpty_iff] using hc
  have ht' : scanAll tryThinkingTag r.data = [] := by
    simpa [noMatches, List.isEmpty_iff] using ht
  have he' : scanAll tryErrorTag r.data = [] := by
    simpa [noMatches, List.isEmpty_iff] using he
  have hs' : scanAll trySuccessTag r.data = [] := by
    simpa [noMatches, List.isEmpty_iff] using hs
  have e1 : replaceTag tryWrite (fun _ => []) r.data = r.data :=
    replaceAux_of_scan_nil _ _ _ hw'
  have e2 : replaceTag tryRename (fun _ => []) r.data = r.data :=
    replaceAux_of_scan_nil _ _ _ hr'
  have e3 : replaceTag tryDelete (fun _ => []) r.data = r.data :=
    replaceAux_of_scan_nil _ _ _ hd'
  have e4 : replaceTag tryDep (fun _ => []) r.data = r.data :=
    replaceAux_of_scan_nil _ _ _ hp'
  have e5 : replaceTag tryCodeTag (fun b => b) r.data = r.data :=
    replaceAux_of_scan_nil _ _ _ hc'
  have e6 : replaceTag tryThinkingTag (fun _ => []) r.data = r.data :=
    replaceAux_of_scan_nil _ _ _ ht'
  have e7 : replaceTag tryErrorTag (fun b => b) r.data = r.data :=
    replaceAux_of_scan_nil _ _ _ he'
  have e8 : replaceTag trySuccessTag (fun b => b) r.data = r.data :=
    replaceAux_of_scan_nil _ _ _ hs'
  constructor
  · simp [parseDecemberTags, writeCommands, renameCommands, deleteCommands,
      addDependencyCommands, hw', hr', hd', hp']
  · simp only [parseDecemberTags, writeCommands, renameCommands,
      deleteCommands, addDependencyCommands, hw', hr', hd', hp',
      List.map_nil, List.append_nil, e1, e2, e3, e4, e5, e6, e7, e8]
    rfl

/-- Witness for claim C6 amended: plain prose with no protocol elements is
returned exactly trimmed, with no commands. -/
theorem c6_no_elements_no_strip_witness :
    (parseDecemberTags "hello world").commands = [] ∧
    (parseDecemberTags "hello world").cleanedContent = jsTrim "hello world" :=
  c6_no_elements_no_strip "hello world" (by decide) (by decide) (by decide)
    (by decide) (by decide) (by decide) (by decide) (by decide)

/-- Claim C7: when the case-folded utterance contains one of the fixed
error words (error, bug, issue) the selection contains common_errors.md,
and when it contains one of the generic component words (component, ui,
button) it contains shadcn_documentation.md; these forced inclusions are
unioned onto the primary-table result, leaving the primary examples
untouched and the primary context a prefix of the final context. -/
theorem c7_forced_inclusion (userMessage : String) :
    ((includesLit (lowerStr userMessage) "error" = true ∨
      includesLit (lowerStr userMessage) "bug" = true ∨
      includesLit (lowerStr userMessage) "issue" = true) →
      "common_errors.md" ∈ (analyzeUserRequest userMessage).context) ∧
    ((includesLit (lowerStr userMessage) "component" = true ∨
      includesLit (lowerStr userMessage) "ui" = true ∨
      includesLit (lowerStr userMessage) "button" = true) →
      "shadcn_documentation.md" ∈ (analyzeUserRequest userMessage).context) ∧
    (analyzeUserRequest userMessage).examples =
      (primarySelection (lowerStr userMessage)).examples ∧
    (∃ t, (primarySelection (lowerStr userMessage)).context ++ t =
      (analyzeUserRequest userMessage).context) := by
  refine ⟨?_, ?_, rfl, ?_⟩
  · intro hd
    have h1 : (includesLit (lowerStr userMessage) "error" ||
        includesLit (lowerStr userMessage) "bug" ||
        includesLit (lowerStr userMessage) "issue") = true := by
      rcases hd with h | h | h <;> simp [h]
    show "common_errors.md" ∈ (analyzeUserRequest userMessage).context
    unfold analyzeUserRequest
    simp only [h1, if_true]
    cases h2 : (includesLit (lowerStr userMessage) "component" ||
        includesLit (lowerStr userMessage) "ui" ||
        includesLit (lowerStr userMessage) "button")
    · simp only [Bool.false_eq_true, if_false]
      exact mem_pushUnique_self _ _
    · simp only [if_true]
      exact mem_pushUnique_of_mem _ (mem_pushUnique_self _ _)
  · intro hd
    have h2 : (includesLit (lowerStr userMessage) "component" ||
        includesLit (lowerStr userMessage) "ui" ||
        includesLit (lowerStr userMessage) "button") = true := by
      rcases hd with h | h | h <;> simp [h]
    show "shadcn_documentation.md" ∈ (analyzeUserRequest userMessage).context
    unfold analyzeUserRequest
    simp only [h2, if_true]
    exact mem_pushUnique_self _ _
  · unfold analyzeUserRequest
    cases h1 : (includesLit (lowerStr userMessage) "error" ||
        includesLit (lowerStr userMessage) "bug" ||
        includesLit (lowerStr userMessage) "issue") <;>
      cases h2 : (includesLit (lowerStr userMessage) "component" ||
          includesLit (lowerStr userMessage) "ui" ||
          includesLit (lowerStr userMessage) "button") <;>
      simp only [h1, h2, Bool.false_eq_true, if_false, if_true]
    · exact ⟨[], by simp⟩
    · exact pushUnique_prefix _ _
    · exact pushUnique_prefix _ _
    · obtain ⟨t1, ht1⟩ := pushUnique_prefix
        (primarySelection (lowerStr userMessage)).context "common_errors.md"
      obtain ⟨t2, ht2⟩ := pushUnique_prefix
        (pushUnique (primarySelection (lowerStr userMessage)).context
          "common_errors.md") "shadcn_documentation.md"
      exact ⟨t1 ++ t2, by rw [← List.append_assoc, ht1, ht2]⟩

/-- Witness for claim C7: an utterance containing the forced words bug and
ui receives both forced documents in its context selection. -/
theorem c7_forced_inclusion_witness :
    "common_errors.md" ∈ (analyzeUserRequest "fix this ui bug").context ∧
    "shadcn_documentation.md" ∈ (analyzeUserRequest "fix this ui bug").context :=
  ⟨(c7_forced_inclusion "fix this ui bug").1 (Or.inr (Or.inl (by decide))),
   (c7_forced_inclusion "fix this ui bug").2.1 (Or.inr (Or.inl (by decide)))⟩

/-- Claim C8: every streamed turn emits exactly one user event first, then
growing assistant events for the first model call, then, exactly when tool
calls were detected in the complete first-phase text, one tool_processing
event followed by a fresh sequence of growing assistant events for the
second call, and finally exactly one terminal done event whose message
carries the finalized, command-cleaned assistant content. -/
theorem c8_stream_event_shape (messages0 : List Message) (userMessage : String)
    (chunks1 : List (Option String))
    (assemble : List String → List String → Except String String)
    (chunks2 : List (Option String))
    (writeFile : String → String → Except String Unit) :
    ∃ evs1 evs2 final,
      evs1 = (streamDeltas "" chunks1).1 ∧
      evs2 = (augmentStream chunks2
        (processToolCalls assemble (streamDeltas "" chunks1).2)
        (streamDeltas "" chunks1).2).2.1 ∧
      (sendMessageStream messages0 userMessage chunks1 assemble chunks2
        writeFile).1 =
        StreamEvent.user (Message.mk Role.user userMessage) ::
          (evs1 ++
            ((if (processToolCalls assemble
                  (streamDeltas "" chunks1).2).hasToolCalls then
                StreamEvent.toolProcessing
                  (processToolCalls assemble
                    (streamDeltas "" chunks1).2).toolCalls :: evs2
              else []) ++
             [StreamEvent.done (Message.mk Role.assistant final)])) ∧
      AssistantGrowing "" evs1 ∧
      AssistantGrowing "" evs2 ∧
      final = (sendMessageStream messages0 userMessage chunks1 assemble chunks2
        writeFile).2.assistantContent ∧
      final = decemberFinalize writeFile
        (augmentStream chunks2
          (processToolCalls assemble (streamDeltas "" chunks1).2)
          (streamDeltas "" chunks1).2).2.2 := by
  have hfinal : (sendMessageStream messages0 userMessage chunks1 assemble
      chunks2 writeFile).2.assistantContent =
      decemberFinalize writeFile
        (augmentStream chunks2
          (processToolCalls assemble (streamDeltas "" chunks1).2)
          (streamDeltas "" chunks1).2).2.2 := by
    simp only [sendMessageStream]
  refine ⟨(streamDeltas "" chunks1).1,
    (augmentStream chunks2
      (processToolCalls assemble (streamDeltas "" chunks1).2)
      (streamDeltas "" chunks1).2).2.1,
    (sendMessageStream messages0 userMessage chunks1 assemble chunks2
      writeFile).2.assistantContent,
    rfl, rfl, ?_, streamDeltas_growing chunks1 "", augmentStream_growing _ _ _,
    rfl, hfinal⟩
  have hev : (sendMessageStream messages0 userMessage chunks1 assemble chunks2
      writeFile).1 =
      StreamEvent.user (Message.mk Role.user userMessage) ::
        ((streamDeltas "" chunks1).1 ++
          ((augmentStream chunks2
            (processToolCalls assemble (streamDeltas "" chunks1).2)
            (streamDeltas "" chunks1).2).1 ++
           ((augmentStream chunks2
             (processToolCalls assemble (streamDeltas "" chunks1).2)
             (streamDeltas "" chunks1).2).2.1 ++
            [StreamEvent.done (Message.mk Role.assistant
              ((sendMessageStream messages0 userMessage chunks1
                assemble chunks2 writeFile).2.assistantContent))]))) := by
    rw [hfinal]
    simp only [sendMessageStream]
  rw [hev, augmentStream_fst]
  cases h : (processToolCalls assemble (streamDeltas "" chunks1).2).hasToolCalls
  · rw [augmentStream_snd1_of_false chunks2 _ _ h]
    simp [h]
  · simp [h]

/-- Claim C9: both the buffered and the streamed turn mutate the session
message list only by appending, the user message before the assistant
message, leaving every earlier message unchanged: the resulting list is
exactly the old list followed by the new user and assistant messages. -/
theorem c9_append_only (messages0 : List Message) (userMessage : String)
    (phase1 : Option String)
    (assemble : List String → List String → Except String String)
    (phase2 : Option String) (chunks1 chunks2 : List (Option String))
    (writeFile : String → String → Except String Unit) :
    (sendMessage messages0 userMessage phase1 assemble phase2
      writeFile).messages =
      messages0 ++
        [Message.mk Role.user userMessage,
         Message.mk Role.assistant
           ((sendMessage messages0 userMessage phase1 assemble phase2
             writeFile).assistantContent)] ∧
    (sendMessageStream messages0 userMessage chunks1 assemble chunks2
      writeFile).2.messages =
      messages0 ++
        [Message.mk Role.user userMessage,
         Message.mk Role.assistant
           ((sendMessageStream messages0 userMessage chunks1 assemble
             chunks2 writeFile).2.assistantContent)] := by
  constructor
  · simp only [sendMessage]
    simp
  · simp only [sendMessageStream]
    simp

/-- Claim C10: when parseDecemberTags finds zero commands,
processDecemberResponse returns the original response completely unchanged
(wrapper elements included); the cleaned content with wrappers stripped is
substituted only when at least one command was found. -/
theorem c10_unchanged_without_commands
    (writeFile : String → String → Except String Unit) (response : String) :
    ((parseDecemberTags response).hasCommands = false →
      (processDecemberResponse writeFile response).cleanedResponse = response) ∧
    ((parseDecemberTags response).hasCommands = true →
      (processDecemberResponse writeFile response).cleanedResponse =
        (parseDecemberTags response).cleanedContent) := by
  constructor
  · intro h
    simp [processDecemberResponse, h]
  · intro h
    simp [processDecemberResponse, h]

/-- Witness for claim C10: a command-free response containing a dec-thinking
wrapper is returned verbatim, while the same wrapper next to a command is
stripped. -/
theorem c10_unchanged_without_commands_witness :
    (processDecemberResponse (fun _ _ => Except.ok ())
        "<dec-thinking>x</dec-thinking>ok").cleanedResponse =
      "<dec-thinking>x</dec-thinking>ok" ∧
    (processDecemberResponse (fun _ _ => Except.ok ())
        "<dec-thinking>x</dec-thinking><dec-delete file_path=\"a.ts\" />ok").cleanedResponse =
      "ok" := by
  constructor
  · exact (c10_unchanged_without_commands (fun _ _ => Except.ok ())
      "<dec-thinking>x</dec-thinking>ok").1 (by decide)
  · have h := (c10_unchanged_without_commands (fun _ _ => Except.ok ())
      "<dec-thinking>x</dec-thinking><dec-delete file_path=\"a.ts\" />ok").2
      (by decide)
    rw [h]
    decide
